import Mathlib

/-!
Verification development for the ws-extension repository.

The file embeds, as Lean definitions, the sequential Baccarat decision
engine (`BaccaratStrategy` from `desktop-app/run_host.sh`), the per-table
session reconciliation (`processBaccaratData` / `translateOutcome` from the
background worker), the performance tracker (`performance.js`), and the
special-function library (`statistics.js`, embedded at the end of
`performance.js`).

Modelling conventions:
* JavaScript floating-point numbers are modelled by exact rationals (`ℚ`)
  wherever the computation is field arithmetic with rational constants, and
  by real numbers (`ℝ`) for the transcendental special-function code.
* JavaScript `NaN` is modelled by `Option`: `none` is the not-a-number
  sentinel.
* The human-readable reason strings produced by the engine are modelled by
  the inductive type `Reason`, one constructor per string template of the
  source, carrying the rational-valued interpolants.  The real-valued
  confidence interpolant of the bet string is display-only (it is produced
  by the `ℝ`-valued confidence pipeline modelled separately below) and is
  not carried in the tag.
* The confidence values (`raw_confidence`, `calibrated_confidence`,
  `confidence`) of a decision log are real-valued and are never read back
  by any state transition of the source; they are modelled by the separate
  `ℝ`-valued functions `rawConfidenceR` and `getCalibratedConfidence`, and
  the remaining (rational) fields of the log are kept in the computable
  `DecisionLog` structure.
-/

/-- Outcome category: Banker, Player, Tie. -/
inductive Cat where
  | B
  | P
  | T
deriving DecidableEq, Repr

/-- Pseudo-count triple over the three categories, as used for priors,
counts and posterior means. -/
structure Counts where
  B : ℚ
  P : ℚ
  T : ℚ
deriving DecidableEq, Repr

/-- Increment of exactly one category count (`this.counts[outcome]++`). -/
def Counts.incr (cnt : Counts) (c : Cat) : Counts :=
  match c with
  | Cat.B => { cnt with B := cnt.B + 1 }
  | Cat.P => { cnt with P := cnt.P + 1 }
  | Cat.T => { cnt with T := cnt.T + 1 }

/-- Global baseline rate for Banker (`GLOBAL_BANKER_RATE = 0.4585`). -/
def GLOBAL_BANKER_RATE : ℚ := 0.4585

/-- Global baseline rate for Player (`GLOBAL_PLAYER_RATE = 0.4462`). -/
def GLOBAL_PLAYER_RATE : ℚ := 0.4462

/-- Global baseline rate for Tie (`GLOBAL_TIE_RATE = 0.0953`). -/
def GLOBAL_TIE_RATE : ℚ := 0.0953

/-- Ensemble combination mode (`config.ensemble_mode`); any value other
than the string `require_all` behaves as `require_one` in the source. -/
inductive EnsembleMode where
  | require_one
  | require_all
deriving DecidableEq, Repr

/-- Configuration of `BaccaratStrategy` (the `this.config` object built by
the constructor in `run_host.sh`). -/
structure Config where
  initial_prior : Counts
  warm_up_rounds : ℕ
  max_exposure : ℚ
  net_profit_stop_loss_units : ℚ
  shrinkage_strength : ℚ
  calibration_map : List (ℚ × ℚ)
  changepoint_penalty : ℚ
  use_ensemble_signal : Bool
  ensemble_mode : EnsembleMode
  kelly_fraction : ℚ
  cusum_drift : ℚ
  cusum_threshold : ℚ
deriving DecidableEq, Repr

/-- Default calibration breakpoint table, in the ascending key order the
source obtains by numerically sorting the keys of `calibration_map`. -/
def calibrationMapDefault : List (ℚ × ℚ) :=
  [(0.70, 0.68), (0.75, 0.71), (0.80, 0.75), (0.85, 0.80), (0.90, 0.86), (0.95, 0.92)]

/-- Default configuration of the constructor (all `options` absent). -/
def defaultConfig : Config where
  initial_prior := ⟨1, 1, 1⟩
  warm_up_rounds := 12
  max_exposure := 10
  net_profit_stop_loss_units := -3
  shrinkage_strength := 5
  calibration_map := calibrationMapDefault
  changepoint_penalty := 0.6
  use_ensemble_signal := true
  ensemble_mode := EnsembleMode.require_one
  kelly_fraction := 0.5
  cusum_drift := 0.05
  cusum_threshold := 4

/-- Latched stop reason (`this.stop_reason`), one constructor per template
string, carrying the threshold interpolant. -/
inductive StopReason where
  | netProfit (threshold : ℚ)
  | maxExposure (cap : ℚ)
deriving DecidableEq, Repr

/-- Decision reason, one constructor per template string of the decision
cascade in `addOutcome`. -/
inductive Reason where
  | analysisPending
  | warmUp
  | stop (r : Option StopReason)
  | ensembleDisagree
  | kellyZero (ev : ℚ)
  | bet
deriving DecidableEq, Repr

/-- The per-round decision `{ betOn, stake, reason }`. -/
structure Decision where
  betOn : Option Cat
  stake : ℕ
  reason : Reason
deriving DecidableEq, Repr

/-- Analysis bundle of a decision log (rational-valued fields; the
real-valued confidence fields are modelled separately, see the header). -/
structure Analysis where
  ev_per_unit : ℚ
  ensemble_agrees : Bool
  change_point_detected : Bool
  cusum_sum : ℚ
  total_staked : ℚ
deriving DecidableEq, Repr

/-- Decision log snapshot produced by each accepted outcome. -/
structure DecisionLog where
  round : ℕ
  outcome : Cat
  counts : Counts
  posterior_mean : Counts
  p_b_star : ℚ
  net_profit : ℚ
  decision : Decision
  analysis : Analysis
deriving DecidableEq, Repr

/-- Mutable state of one `BaccaratStrategy` instance. -/
structure State where
  config : Config
  counts : Counts
  round : ℕ
  net_profit : ℚ
  total_staked : ℚ
  betting_disabled : Bool
  stop_reason : Option StopReason
  recent_outcomes : List Cat
  change_point_detected : Bool
  current_decision_log : Option DecisionLog
  current_max_exposure : ℚ
  current_stop_loss : ℚ
  betting_disabled_cusum : Bool
  cusum_sum : ℚ
deriving DecidableEq, Repr

/-- The `resetShoe(prior)` method. -/
def resetShoe (cfg : Config) (prior : Counts) : State where
  config := cfg
  counts := prior
  round := 0
  net_profit := 0
  total_staked := 0
  betting_disabled := false
  stop_reason := none
  recent_outcomes := []
  change_point_detected := false
  current_decision_log := none
  current_max_exposure := cfg.max_exposure
  current_stop_loss := cfg.net_profit_stop_loss_units
  betting_disabled_cusum := false
  cusum_sum := 0

/-- The constructor `new BaccaratStrategy(options)`: builds the config then
calls `resetShoe(config.initial_prior)`. -/
def mkStrategy (cfg : Config) : State :=
  resetShoe cfg cfg.initial_prior

/-- The `getStakeUnitKelly(p_win, p_lose)` method; the `odds` parameter is
always the default `0.95` at the unique call site. -/
def getStakeUnitKelly (kfrac p_win p_lose : ℚ) : ℕ :=
  let odds : ℚ := 0.95
  let kelly := (p_win * odds - p_lose) / odds
  if kelly ≤ 0 then 0
  else
    let stake_fraction := kfrac * kelly
    if 0.15 < stake_fraction then 4
    else if 0.10 < stake_fraction then 3
    else if 0.05 < stake_fraction then 2
    else if 0.02 < stake_fraction then 1
    else 0

/-- The JavaScript `list.slice(-n)`: the last `n` elements (the whole list
when it is shorter). -/
def sliceLast (n : ℕ) (l : List Cat) : List Cat :=
  l.drop (l.length - n)

/-- The `getMomentumSignal()` method over the recent-outcome history. -/
def getMomentumSignal (recent : List Cat) : Bool :=
  let window := sliceLast 15 recent
  if window.length < 10 then false
  else (window.filter (fun o => o == Cat.B)).length > (window.filter (fun o => o == Cat.P)).length

/-- The `getStreakSignal()` method. -/
def getStreakSignal (recent : List Cat) : Bool :=
  if recent.length < 3 then false
  else (sliceLast 3 recent).all (fun o => o == Cat.B)

/-- The `getChopSignal()` method. -/
def getChopSignal (recent : List Cat) : Bool :=
  if recent.length < 4 then false
  else sliceLast 4 recent == [Cat.B, Cat.P, Cat.B, Cat.P]

/-- The `getEnsembleSignal()` method. -/
def getEnsembleSignal (mode : EnsembleMode) (recent : List Cat) : Bool :=
  let signals := [getMomentumSignal recent, getStreakSignal recent, getChopSignal recent]
  let agreeing := (signals.filter (fun s => s == true)).length
  match mode with
  | EnsembleMode.require_all => agreeing == signals.length
  | EnsembleMode.require_one => agreeing > 0

/-- Settlement of the previous round's pending decision against the new
outcome (win pays `stake * 0.95`, loss costs `stake`). -/
def settle (log? : Option DecisionLog) (np : ℚ) (c : Cat) : ℚ :=
  match log? with
  | none => np
  | some lg =>
      if 0 < lg.decision.stake then
        if lg.decision.betOn = some c then np + (lg.decision.stake : ℚ) * 0.95
        else np - (lg.decision.stake : ℚ)
      else np

/-- CUSUM update of `updateLegacySystems`: returns the new
`(cusum_sum, betting_disabled_cusum, change_point_detected)` triple. -/
def cusumUpdate (cfg : Config) (cusum : ℚ) (bdc cp : Bool) (c : Cat) (p_b_star : ℚ) :
    ℚ × Bool × Bool :=
  let x_t : ℚ := if c = Cat.B then 1 else 0
  if bdc then (cusum, bdc, cp)
  else
    let s := max 0 (cusum + (x_t - (p_b_star + cfg.cusum_drift)))
    if cfg.cusum_threshold < s then (s, true, true) else (s, bdc, cp)

/-- The two monotonic stop checks of `addOutcome` (net-profit stop loss,
then max exposure), updating the latch and the stop reason in order. -/
def stopChecks (st : State) (np : ℚ) : Bool × Option StopReason :=
  let r1 : Bool × Option StopReason :=
    if np ≤ st.current_stop_loss then (true, some (StopReason.netProfit st.current_stop_loss))
    else (st.betting_disabled, st.stop_reason)
  if st.current_max_exposure ≤ st.total_staked then
    (true, some (StopReason.maxExposure st.current_max_exposure))
  else r1

/-- The decision cascade of `addOutcome` (first matching rule wins),
returning the decision and the updated cumulative stake. -/
def chooseDecision (cfg : Config) (round : ℕ) (bd : Bool) (sr : Option StopReason)
    (ensemble : Bool) (stake_unit : ℕ) (ev : ℚ) (total_staked : ℚ) : Decision × ℚ :=
  if round < cfg.warm_up_rounds then
    ({ betOn := none, stake := 0, reason := Reason.warmUp }, total_staked)
  else if bd then
    ({ betOn := none, stake := 0, reason := Reason.stop sr }, total_staked)
  else if cfg.use_ensemble_signal && !ensemble then
    ({ betOn := none, stake := 0, reason := Reason.ensembleDisagree }, total_staked)
  else if stake_unit ≤ 0 then
    ({ betOn := none, stake := 0, reason := Reason.kellyZero ev }, total_staked)
  else
    ({ betOn := some Cat.B, stake := stake_unit, reason := Reason.bet },
      total_staked + (stake_unit : ℚ))

/-- The `addOutcome` body for a recognized category (everything after the
`['B','P','T'].includes` guard). -/
def addOutcomeCat (st : State) (c : Cat) : State :=
  let round := st.round + 1
  let recent := st.recent_outcomes ++ [c]
  let np := settle st.current_decision_log st.net_profit c
  let counts := st.counts.incr c
  let k := st.config.shrinkage_strength
  let shrunk : Counts :=
    ⟨counts.B + k * GLOBAL_BANKER_RATE,
     counts.P + k * GLOBAL_PLAYER_RATE,
     counts.T + k * GLOBAL_TIE_RATE⟩
  let total_shrunk_alpha := shrunk.B + shrunk.P + shrunk.T
  let posterior_mean : Counts :=
    ⟨shrunk.B / total_shrunk_alpha, shrunk.P / total_shrunk_alpha, shrunk.T / total_shrunk_alpha⟩
  let p_b_star := (1 - posterior_mean.T) / 1.95
  let legacy := cusumUpdate st.config st.cusum_sum st.betting_disabled_cusum
    st.change_point_detected c p_b_star
  let ev_per_unit := posterior_mean.B * 0.95 - posterior_mean.P
  let ensemble := getEnsembleSignal st.config.ensemble_mode recent
  let stops := stopChecks st np
  let stake_unit := getStakeUnitKelly st.config.kelly_fraction posterior_mean.B posterior_mean.P
  let dec := chooseDecision st.config round stops.1 stops.2 ensemble stake_unit
    ev_per_unit st.total_staked
  let log : DecisionLog :=
    { round := round
      outcome := c
      counts := counts
      posterior_mean := posterior_mean
      p_b_star := p_b_star
      net_profit := np
      decision := dec.1
      analysis :=
        { ev_per_unit := ev_per_unit
          ensemble_agrees := ensemble
          change_point_detected := legacy.2.2
          cusum_sum := legacy.1
          total_staked := dec.2 } }
  { st with
      counts := counts
      round := round
      net_profit := np
      total_staked := dec.2
      betting_disabled := stops.1
      stop_reason := stops.2
      recent_outcomes := recent
      change_point_detected := legacy.2.2
      current_decision_log := some log
      betting_disabled_cusum := legacy.2.1
      cusum_sum := legacy.1 }

/-- Raw input to `addOutcome`: either one of the recognized category tags
or any other string. -/
inductive OutcomeInput where
  | cat (c : Cat)
  | invalid (s : String)
deriving DecidableEq, Repr

/-- The `addOutcome(outcome)` method: unrecognized outcomes are rejected
with no state change (and no log is returned). -/
def addOutcome (st : State) (o : OutcomeInput) : State :=
  match o with
  | OutcomeInput.invalid _ => st
  | OutcomeInput.cat c => addOutcomeCat st c

/-- Trace of decision logs emitted by replaying a list of categories. -/
def runTrace (st : State) : List Cat → List DecisionLog
  | [] => []
  | c :: rest =>
      let st' := addOutcomeCat st c
      (st'.current_decision_log.toList) ++ runTrace st' rest

/-! ### PerformanceTracker (first class of `performance.js`, the one the
background worker of `src/unnamed/part_002` pairs with: it reads
`relaxed_metrics` and `bet_history`). -/

/-- One entry of the tracker's `bet_history`; `win` models the
`'WIN' / 'LOSE'` result string. -/
structure BetRecord where
  round : ℕ
  betOn : Option Cat
  stake : ℕ
  outcome : Cat
  win : Bool
deriving DecidableEq, Repr

/-- The `relaxed_metrics` counters. -/
structure RelaxedMetrics where
  bets_made : ℕ
  units_staked : ℕ
  wins : ℕ
  losses : ℕ
deriving DecidableEq, Repr

/-- State of one `PerformanceTracker` instance. -/
structure Tracker where
  outcomes_observed : ℕ
  net_profit_units : ℚ
  bet_history : List BetRecord
  relaxed_metrics : RelaxedMetrics
deriving DecidableEq, Repr

/-- The `reset()` method (also the constructor). -/
def Tracker.reset : Tracker where
  outcomes_observed := 0
  net_profit_units := 0
  bet_history := []
  relaxed_metrics := ⟨0, 0, 0, 0⟩

/-- The `recordDecision(log, actualOutcome)` method. -/
def recordDecision (t : Tracker) (log : DecisionLog) (actual : Cat) : Tracker :=
  let t1 := { t with outcomes_observed := t.outcomes_observed + 1 }
  if 0 < log.decision.stake then
    let isWin := log.decision.betOn = some actual
    { t1 with
        net_profit_units :=
          if isWin then t1.net_profit_units + (log.decision.stake : ℚ) * 0.95
          else t1.net_profit_units - (log.decision.stake : ℚ)
        relaxed_metrics :=
          { bets_made := t1.relaxed_metrics.bets_made + 1
            units_staked := t1.relaxed_metrics.units_staked + log.decision.stake
            wins := t1.relaxed_metrics.wins + (if isWin then 1 else 0)
            losses := t1.relaxed_metrics.losses + (if isWin then 0 else 1) }
        bet_history :=
          t1.bet_history ++
            [⟨log.round, log.decision.betOn, log.decision.stake, actual,
              decide (log.decision.betOn = some actual)⟩] }
  else t1

/-! ### Session reconciliation (`processBaccaratData` / `translateOutcome`
of the background worker `src/unnamed/part_002`), modelled for a single
stream (table): the per-table entries of `tableStates` and `globalPriors`
are the `Option TableState` and `Option Counts` arguments. -/

/-- Raw upstream result record, as classified by `translateOutcome`:
`nullv` is any falsy record (`null`, `undefined`, … — the empty string is
also falsy), `str` a non-empty plain string (property accesses on a string
yield `undefined`), and `obj` an object with its `ties` field truthiness
and optional `c` wire tag. -/
inductive RawResult where
  | nullv
  | str (s : String)
  | obj (ties : Bool) (c : Option String)
deriving DecidableEq, Repr

/-- The `translateOutcome(resultObject)` function. -/
def translateOutcome : RawResult → Option Cat
  | RawResult.nullv => none
  | RawResult.str _ => none
  | RawResult.obj ties c =>
      if ties then some Cat.T
      else if c = some "R" then some Cat.B
      else if c = some "B" then some Cat.P
      else none

/-- Per-table entry of `tableStates`. -/
structure TableState where
  strategy : State
  tracker : Tracker
  lastRound : ℕ
  hasStopped : Bool
deriving DecidableEq, Repr

/-- Construction of a fresh per-table state (`new BaccaratStrategy({
initial_prior: ... })`, `new PerformanceTracker()`, `lastRound: 0`,
`hasStopped: false`). -/
def TableState.init (prior : Counts) : TableState where
  strategy := mkStrategy { defaultConfig with initial_prior := prior }
  tracker := Tracker.reset
  lastRound := 0
  hasStopped := false

/-- Accumulator of the replay loop over the new outcomes: the strategy,
the tracker and the rolling `lastDecisionLog`. -/
structure ReplayAcc where
  strategy : State
  tracker : Tracker
  lastLog : Option DecisionLog
deriving DecidableEq, Repr

/-- One iteration of the `for (const resultObject of newOutcomes)` loop:
unclassified records are skipped; otherwise the previous decision is
settled into the tracker and the outcome is fed to the engine. -/
def replayStep (acc : ReplayAcc) (r : RawResult) : ReplayAcc :=
  match translateOutcome r with
  | none => acc
  | some c =>
      let tracker :=
        match acc.lastLog with
        | some lg => recordDecision acc.tracker lg c
        | none => acc.tracker
      let strategy := addOutcomeCat acc.strategy c
      { strategy := strategy, tracker := tracker, lastLog := strategy.current_decision_log }

/-- Whether a decision reason renders as a string starting with `STOP:`. -/
def isStopReason : Reason → Bool
  | Reason.stop _ => true
  | _ => false

/-- The tail of `processBaccaratData` shared by all branches: length-based
diffing, replay of the new suffix, and the `lastRound` / `hasStopped`
bookkeeping.  Returns the new per-table state and the (unchanged here)
global prior entry. -/
def processTail (st : TableState) (gp : Option Counts) (results : List RawResult) :
    Option TableState × Option Counts :=
  let newOutcomes := results.drop st.lastRound
  if newOutcomes.isEmpty then (some st, gp)
  else
    let acc := newOutcomes.foldl replayStep
      ⟨st.strategy, st.tracker, st.strategy.current_decision_log⟩
    let hasStopped :=
      match acc.lastLog with
      | none => st.hasStopped
      | some lg => st.hasStopped || isStopReason lg.decision.reason
    (some ⟨acc.strategy, acc.tracker, results.length, hasStopped⟩, gp)

/-- The `processBaccaratData(tableId, tableData)` function for one stream:
a session boundary (no state yet, or a report shorter than the last
recorded length AND shorter than 5) folds the ending session's final
counts into the global prior entry verbatim and rebuilds the state from
scratch; otherwise the new suffix is replayed. -/
def processBaccaratData (state? : Option TableState) (gp : Option Counts)
    (results : List RawResult) : Option TableState × Option Counts :=
  match state? with
  | none => processTail (TableState.init (gp.getD ⟨1, 1, 1⟩)) gp results
  | some st =>
      if results.length < st.lastRound ∧ results.length < 5 then
        let gpNew := some st.strategy.counts
        processTail (TableState.init (gpNew.getD ⟨1, 1, 1⟩)) gpNew results
      else processTail st gp results

/-! ### Special functions (`statistics.js`, embedded at the end of
`performance.js`).  JavaScript doubles are modelled by real numbers; the
`NaN` sentinel by `Option.none`. -/

/-- The machine-precision constant `EPSILON = 1e-15`. -/
noncomputable def EPSILON : ℝ := 1e-15

/-- The nine-term Lanczos series `a` of `gammaln` (the `p[0] + Σ p[i] /
(x + i)` accumulation, on the already-decremented argument). -/
noncomputable def lanczosSum (x : ℝ) : ℝ :=
  0.99999999999980993
  + 676.5203681218851 / (x + 1)
  + -1259.1392167224028 / (x + 2)
  + 771.32342877765313 / (x + 3)
  + -176.61502916214059 / (x + 4)
  + 12.507343278686905 / (x + 5)
  + -0.13857109526572012 / (x + 6)
  + 9.9843695780195716e-6 / (x + 7)
  + 1.5056327351493116e-7 / (x + 8)

/-- The main (`x ≥ 0.5`) branch of `gammaln`: the Lanczos evaluation after
the `x -= 1` shift, with `t = x + p.length - 1.5 = x + 7.5`. -/
noncomputable def gammalnPos (x : ℝ) : ℝ :=
  let y := x - 1
  let t := y + 7.5
  Real.log (Real.sqrt (2 * Real.pi) * lanczosSum y) + t * Real.log t - t

/-- The `gammaln(x)` function.  For `x < 0.5` the source computes
`Math.PI / Math.sin(Math.PI * x) - gammaln(1 - x)` (the log-gamma
reflection formula would instead take `Math.log` of the first summand);
since `1 - x > 0.5` there, the recursive call lands in the Lanczos branch
and is unrolled here. -/
noncomputable def gammaln (x : ℝ) : ℝ :=
  if x < 0.5 then Real.pi / Real.sin (Real.pi * x) - gammalnPos (1 - x)
  else gammalnPos x

/-- The continued-fraction coefficient `d_m` of iteration `i` (1-based,
`m = i >> 1`), odd and even cases. -/
noncomputable def cfD (x a b : ℝ) (i : ℕ) : ℝ :=
  let m : ℝ := (i / 2 : ℕ)
  if i % 2 = 1 then
    -((a + m - 1) * (a + b + m - 1) * x) / ((a + 2 * m - 2) * (a + 2 * m - 1))
  else
    (m * (b - m) * x) / ((a + 2 * m - 2) * (a + 2 * m - 1))

/-- The modified Lentz loop of `regularizedIncompleteBeta` (`fuel` counts
the remaining iterations of the `1..200` loop, `i` is the iteration
index), with the `EPSILON` floors on `c` and `d` and the
relative-convergence early exit on `|delta - 1|`. -/
noncomputable def cfLoop (x a b : ℝ) : ℕ → ℕ → ℝ → ℝ → ℝ → ℝ
  | 0, _, f, _, _ => f
  | fuel + 1, i, f, c, d =>
      let d_m := cfD x a b i
      let d1 := 1 + d_m * d
      let d2 := if |d1| < EPSILON then EPSILON else d1
      let d3 := 1 / d2
      let c1 := 1 + d_m / c
      let c2 := if |c1| < EPSILON then EPSILON else c1
      let delta := c2 * d3
      let f1 := f * delta
      if |delta - 1| < EPSILON * 100 then f1
      else cfLoop x a b fuel (i + 1) f1 c2 d3

/-- The in-domain value of `regularizedIncompleteBeta`: the exact-endpoint
returns and the log-space front multiplier times the reciprocal of the
continued fraction. -/
noncomputable def ribCore (x a b : ℝ) : ℝ :=
  if x = 0 then 0
  else if x = 1 then 1
  else
    let logBeta := gammaln (a + b) - gammaln a - gammaln b
    let front := Real.exp (a * Real.log x + b * Real.log (1 - x) - logBeta) / a
    front * (1 / cfLoop x a b 200 1 1 1 0)

/-- `regularizedIncompleteBeta(x, a, b)`: `none` models the `NaN` sentinel
returned for `x` outside `[0, 1]`. -/
noncomputable def regularizedIncompleteBeta (x a b : ℝ) : Option ℝ :=
  if x < 0 ∨ 1 < x then none else some (ribCore x a b)

/-- The Beta density used as the Newton derivative in `betaCdfInv`. -/
noncomputable def betaPdf (a b logBeta x : ℝ) : ℝ :=
  Real.exp ((a - 1) * Real.log x + (b - 1) * Real.log (1 - x) - logBeta)

/-- The Newton–Raphson phase of `betaCdfInv` (at most 20 steps): `some`
is the converged result; `none` falls through to bisection (a step out of
`(0, 1)` or no convergence within the iteration budget). -/
noncomputable def newtonLoop (p a b logBeta : ℝ) : ℕ → ℝ → Option ℝ
  | 0, _ => none
  | n + 1, x =>
      let step := (ribCore x a b - p) / betaPdf a b logBeta x
      let nextX := x - step
      if nextX ≤ 0 ∨ 1 ≤ nextX then none
      else if |step| < 1e-8 then some nextX
      else newtonLoop p a b logBeta n nextX

/-- The bisection fallback of `betaCdfInv` (at most 50 halvings of
`[0, 1]`, stopping early when the bracket is narrower than `1e-10`). -/
noncomputable def bisectLoop (p a b : ℝ) : ℕ → ℝ → ℝ → ℝ × ℝ
  | 0, lo, hi => (lo, hi)
  | n + 1, lo, hi =>
      let mid := (lo + hi) / 2
      let lohi := if ribCore mid a b < p then (mid, hi) else (lo, mid)
      if lohi.2 - lohi.1 < 1e-10 then lohi
      else bisectLoop p a b n lohi.1 lohi.2

/-- `betaCdfInv(p, a, b)`: `some` is an ordinary numeric result; `none`
would model the `NaN` sentinel, which this function never produces —
`p ≤ 0` returns `0` and `p ≥ 1` returns `1` before any computation. -/
noncomputable def betaCdfInv (p a b : ℝ) : Option ℝ :=
  if p ≤ 0 then some 0
  else if 1 ≤ p then some 1
  else
    let x0 := if 1 < a ∧ 1 < b then a / (a + b) else Real.rpow p (1 / a)
    let logBeta := gammaln a + gammaln b - gammaln (a + b)
    match newtonLoop p a b logBeta 20 x0 with
    | some x => some x
    | none =>
        let lohi := bisectLoop p a b 50 0 1
        some ((lohi.1 + lohi.2) / 2)

/-! ### The real-valued confidence pipeline of the engine (display-only:
it feeds the log's confidence fields and the bet reason string, and is
never read back by any state transition). -/

/-- Lines `raw_confidence = 1 - regularizedIncompleteBeta(...)` and
`if (isNaN(raw_confidence)) raw_confidence = 0` of `addOutcome`: the
sentinel maps to confidence `0` (in JavaScript `1 - NaN` is `NaN`). -/
noncomputable def rawConfidenceR (p_b_star a b : ℝ) : ℝ :=
  match regularizedIncompleteBeta p_b_star a b with
  | none => 0
  | some v => 1 - v

/-- The lookup loop of `getCalibratedConfidence`: scans the breakpoint
list (in ascending key order), keeping the value of the last breakpoint
not exceeding the confidence, and stops (`break`) at the first breakpoint
above it. -/
def calibLoop {α : Type} [LinearOrder α] (conf : α) : List (α × α) → α → α
  | [], cal => cal
  | bv :: rest, cal => if bv.1 ≤ conf then calibLoop conf rest bv.2 else cal

/-- The `getCalibratedConfidence(confidence)` method, over a breakpoint
table already sorted by ascending key (as the source obtains by sorting
the keys of `calibration_map` numerically). -/
def getCalibratedConfidence {α : Type} [LinearOrder α] (m : List (α × α)) (conf : α) : α :=
  calibLoop conf m conf

/-- The default calibration table over the reals (the breakpoints of
`calibrationMapDefault`, in ascending key order). -/
noncomputable def calibrationMapDefaultR : List (ℝ × ℝ) :=
  [(0.70, 0.68), (0.75, 0.71), (0.80, 0.75), (0.85, 0.80), (0.90, 0.86), (0.95, 0.92)]

/-- Steps 5–8 of `addOutcome` assembled: raw confidence, change-point
penalty, calibration, and the EV gate forcing the final confidence to `0`
on non-positive expected value. -/
noncomputable def finalConfidenceR (cfg : Config) (cp : Bool) (shrunk : Counts)
    (p_b_star ev : ℚ) : ℝ :=
  let raw := rawConfidenceR (p_b_star : ℝ) (shrunk.B : ℝ) ((shrunk.P : ℝ) + (shrunk.T : ℝ))
  let adjusted := if cp then raw * (cfg.changepoint_penalty : ℝ) else raw
  let calibrated := getCalibratedConfidence
    (cfg.calibration_map.map (fun bv => ((bv.1 : ℝ), (bv.2 : ℝ)))) adjusted
  if 0 < ev then calibrated else 0

/-! ### Concrete inputs used by the counterexamples below. -/

/-- A tracked table whose last recorded cumulative length is 10 (fresh
default engine otherwise). -/
def tableAtRound10 : TableState :=
  { TableState.init ⟨1, 1, 1⟩ with lastRound := 10 }

/-- A report of six classifiable Banker records. -/
def sixBankerResults : List RawResult :=
  List.replicate 6 (RawResult.obj false (some "R"))

/-- A report of three classifiable Banker records. -/
def threeBankerResults : List RawResult :=
  List.replicate 3 (RawResult.obj false (some "R"))

/-!
## Theorems

The `Rat` arithmetic operations are `@[irreducible]` in the library; they
are made semireducible locally so that `decide` can evaluate the engine's
exact rational state on the concrete runs below.
-/

section Proofs

attribute [local semireducible] Rat.add Rat.mul Rat.inv Rat.sub Rat.ofScientific

/-- Helper: both stop checks only ever set the `betting_disabled` latch,
never clear it. -/
theorem stopChecks_latch (st : State) (np : ℚ) (h : st.betting_disabled = true) :
    (stopChecks st np).1 = true := by
  simp only [stopChecks]
  split_ifs <;> simp [h]

/-- Helper: one `addOutcome` call preserves a set `betting_disabled` latch. -/
theorem addOutcome_latch_step (st : State) (o : OutcomeInput) (h : st.betting_disabled = true) :
    (addOutcome st o).betting_disabled = true := by
  cases o with
  | invalid s => simpa [addOutcome] using h
  | cat c =>
      simp only [addOutcome, addOutcomeCat]
      exact stopChecks_latch st _ h

/-- C6: `betting_disabled` is a one-way latch within a session: once true
it stays true across every further `addOutcome` call (valid or not),
whatever the later confidence or profit values are, and only `resetShoe`
(which starts a new session) clears it. -/
theorem betting_disabled_latch :
    (∀ (st : State) (l : List OutcomeInput), st.betting_disabled = true →
        (l.foldl addOutcome st).betting_disabled = true)
    ∧ ∀ (cfg : Config) (prior : Counts), (resetShoe cfg prior).betting_disabled = false := by
  constructor
  · intro st l
    induction l generalizing st with
    | nil => intro h; simpa using h
    | cons o rest ih =>
        intro h
        exact ih (addOutcome st o) (addOutcome_latch_step st o h)
  · intro cfg prior
    rfl

/-- C6 witness: the latch theorem applied to a concretely disabled default
engine and a concrete outcome sequence. -/
theorem betting_disabled_latch_witness :
    (([OutcomeInput.cat Cat.B, OutcomeInput.cat Cat.P, OutcomeInput.invalid "X"].foldl addOutcome
        { mkStrategy defaultConfig with betting_disabled := true }).betting_disabled = true)
    ∧ (resetShoe defaultConfig ⟨1, 1, 1⟩).betting_disabled = false :=
  ⟨betting_disabled_latch.1 _ _ rfl, betting_disabled_latch.2 defaultConfig ⟨1, 1, 1⟩⟩

/-- Helper: every Kelly stake tier is at most 4 units. -/
theorem getStakeUnitKelly_le_four (kf pw pl : ℚ) : getStakeUnitKelly kf pw pl ≤ 4 := by
  simp only [getStakeUnitKelly]
  split_ifs <;> norm_num

/-- Helper: if the stop checks leave the latch clear, the cumulative stake
was strictly below the exposure cap when they ran. -/
theorem stopChecks_fst_false (st : State) (np : ℚ) (h : (stopChecks st np).1 = false) :
    st.total_staked < st.current_max_exposure := by
  by_contra hc
  push_neg at hc
  simp [stopChecks, if_pos hc] at h

/-- Helper: one accepted outcome either leaves the cumulative stake
unchanged, or — only when the stake was strictly below the exposure cap at
the stop check — adds a single stake of at most 4 units. -/
theorem addOutcomeCat_staked_step (st : State) (c : Cat) :
    (addOutcomeCat st c).total_staked = st.total_staked
    ∨ (st.total_staked < st.current_max_exposure
        ∧ ∃ u : ℕ, u ≤ 4 ∧ (addOutcomeCat st c).total_staked = st.total_staked + (u : ℚ)) := by
  simp only [addOutcomeCat, chooseDecision]
  split_ifs with h1 h2 h3 h4
  · left; rfl
  · left; rfl
  · left; rfl
  · left; rfl
  · right
    have h2' : (stopChecks st (settle st.current_decision_log st.net_profit c)).1 = false := by
      simpa using h2
    exact ⟨stopChecks_fst_false st _ h2',
      getStakeUnitKelly st.config.kelly_fraction _ _, getStakeUnitKelly_le_four _ _ _, rfl⟩

/-- Helper: `addOutcome` never changes the exposure cap (this engine
version has no adaptive tightening). -/
theorem addOutcome_cme (st : State) (o : OutcomeInput) :
    (addOutcome st o).current_max_exposure = st.current_max_exposure := by
  cases o with
  | invalid s => rfl
  | cat c => rfl

/-- Helper invariant for C9: along any run, the cumulative stake is a
natural number bounded by `M + 3`. -/
theorem exposure_inv (M : ℕ) :
    ∀ (l : List OutcomeInput) (st : State),
      st.current_max_exposure = (M : ℚ) →
      (∃ n : ℕ, st.total_staked = (n : ℚ) ∧ n ≤ M + 3) →
      ∃ n : ℕ, (l.foldl addOutcome st).total_staked = (n : ℚ) ∧ n ≤ M + 3 := by
  intro l
  induction l with
  | nil => intro st hM hn; simpa using hn
  | cons o rest ih =>
      intro st hM hn
      refine ih (addOutcome st o) (by rw [addOutcome_cme]; exact hM) ?_
      obtain ⟨n, hts, hle⟩ := hn
      cases o with
      | invalid s => exact ⟨n, hts, hle⟩
      | cat c =>
          rcases addOutcomeCat_staked_step st c with h | ⟨hlt, u, hu, heq⟩
          · exact ⟨n, by rw [addOutcome, h, hts], hle⟩
          · have hq : (n : ℚ) < (M : ℚ) := by rw [← hts, ← hM]; exact hlt
            have hnM : n < M := by exact_mod_cast hq
            refine ⟨n + u, ?_, by omega⟩
            rw [addOutcome, heq, hts]
            push_cast
            ring

/-- C9: with an integer exposure cap `M`, the cumulative stake of any run
from a fresh engine never exceeds `M + 3`: a bet is placed only when the
stake was strictly below `M` at the round's stop check, and a single stake
is at most 4 units. -/
theorem exposure_overshoot_bound (cfg : Config) (M : ℕ) (hM : cfg.max_exposure = (M : ℚ))
    (l : List OutcomeInput) :
    (l.foldl addOutcome (mkStrategy cfg)).total_staked ≤ (M : ℚ) + 3 := by
  obtain ⟨n, hts, hle⟩ := exposure_inv M l (mkStrategy cfg)
    (by simpa [mkStrategy, resetShoe] using hM) ⟨0, by simp [mkStrategy, resetShoe], by omega⟩
  rw [hts]
  have h : (n : ℚ) ≤ ((M + 3 : ℕ) : ℚ) := by exact_mod_cast hle
  push_cast at h
  linarith

/-- C9 witness: the bound applied to the default configuration (cap 10)
and a concrete 13-outcome run. -/
theorem exposure_overshoot_bound_witness :
    ((List.replicate 13 (OutcomeInput.cat Cat.B)).foldl addOutcome
        (mkStrategy defaultConfig)).total_staked ≤ (10 : ℚ) + 3 :=
  exposure_overshoot_bound defaultConfig 10 (by norm_num [defaultConfig]) _

set_option maxRecDepth 40000 in
/-- C1 counterexample: feeding 12 consecutive `B` outcomes to a fresh
default engine does NOT yield 12 zero-stake warm-up logs — the warm-up
test is `round < 12`, so the 12th round is decided normally and is a
4-unit Banker bet. -/
theorem warmup_period_cex :
    ((runTrace (mkStrategy defaultConfig) (List.replicate 12 Cat.B)).map
        (fun lg => lg.decision.stake)).getLast? = some 4
    ∧ ¬ ∀ lg ∈ runTrace (mkStrategy defaultConfig) (List.replicate 12 Cat.B),
        lg.decision.stake = 0 := by
  constructor
  · decide
  · decide

set_option maxRecDepth 40000 in
/-- C1 amended: with the default configuration, for every category, the
first 11 rounds (those with `round < warm_up_rounds = 12`) each produce a
decision log with stake 0 and the warm-up reason; the 12th round is
decided by the normal rules. -/
theorem warmup_period_amended :
    ∀ c : Cat,
      (runTrace (mkStrategy defaultConfig) (List.replicate 11 c)).length = 11
      ∧ ∀ lg ∈ runTrace (mkStrategy defaultConfig) (List.replicate 11 c),
          lg.decision.stake = 0 ∧ lg.decision.reason = Reason.warmUp := by
  intro c
  cases c <;> exact ⟨by decide, by decide⟩

/-- C10: the `ties` field takes precedence in `translateOutcome`: every
record with a truthy `ties` maps to category T no matter what `c` carries
(including `c = 'R'` or `c = 'B'`), so it never maps to B or P. -/
theorem ties_precedence (c : Option String) :
    translateOutcome (RawResult.obj true c) = some Cat.T := by
  simp [translateOutcome]

/-- C4 counterexample: the string tags are NOT classified: `translateOutcome`
maps the strings `Player`, `Banker` (and every other string) to no
category, not to P / B / T as the claim states. -/
theorem string_tag_classification_cex :
    translateOutcome (RawResult.str "Player") = none
    ∧ translateOutcome (RawResult.str "Banker") = none
    ∧ translateOutcome (RawResult.str "Tie") = none :=
  ⟨rfl, rfl, rfl⟩

/-- C4 amended: every string (and every falsy record) is unclassified and
dropped; object records classify as `ties` truthy → T, `c = 'R'` → B,
`c = 'B'` → P, anything else unclassified; an unclassified record is
skipped by the replay loop without touching engine or tracker state, and
the engine's own guard rejects non-category inputs without a state
change. -/
theorem outcome_classification_amended :
    (∀ s : String, translateOutcome (RawResult.str s) = none)
    ∧ translateOutcome RawResult.nullv = none
    ∧ (∀ c : Option String, translateOutcome (RawResult.obj true c) = some Cat.T)
    ∧ translateOutcome (RawResult.obj false (some "R")) = some Cat.B
    ∧ translateOutcome (RawResult.obj false (some "B")) = some Cat.P
    ∧ (∀ c : Option String, c ≠ some "R" → c ≠ some "B" →
        translateOutcome (RawResult.obj false c) = none)
    ∧ (∀ (acc : ReplayAcc) (r : RawResult), translateOutcome r = none → replayStep acc r = acc)
    ∧ (∀ (st : State) (s : String), addOutcome st (OutcomeInput.invalid s) = st) := by
  refine ⟨fun s => rfl, rfl, fun c => by simp [translateOutcome], by decide, by decide,
    fun c h1 h2 => by simp [translateOutcome, h1, h2], fun acc r h => by simp [replayStep, h],
    fun st s => rfl⟩

/-- C4 amended witness: the hypothesis-bearing parts instantiated at a
concrete unmatched wire tag and at a concrete string record. -/
theorem outcome_classification_amended_witness :
    translateOutcome (RawResult.obj false (some "X")) = none
    ∧ replayStep ⟨mkStrategy defaultConfig, Tracker.reset, none⟩ (RawResult.str "Player")
        = ⟨mkStrategy defaultConfig, Tracker.reset, none⟩ :=
  ⟨outcome_classification_amended.2.2.2.2.2.1 (some "X") (by decide) (by decide),
   outcome_classification_amended.2.2.2.2.2.2.1 _ _ rfl⟩

/-- C8: idempotent replay: a report whose cumulative length equals the
last recorded length changes nothing — no boundary fires, the suffix to
replay is empty, and the table state (engine, tracker, round bookkeeping)
and the global prior come back unchanged. -/
theorem idempotent_replay (st : TableState) (gp : Option Counts) (results : List RawResult)
    (h : results.length = st.lastRound) :
    processBaccaratData (some st) gp results = (some st, gp) := by
  have hnb : ¬ (results.length < st.lastRound ∧ results.length < 5) := by
    rw [h]
    intro hc
    exact absurd hc.1 (lt_irrefl _)
  have hdrop : results.drop st.lastRound = [] := by
    rw [← h]
    exact List.drop_length results
  simp [processBaccaratData, hnb, processTail, hdrop]

/-- C8 witness: the idempotence theorem applied to a concrete tracked
table (last length 3) and a concrete same-length report. -/
theorem idempotent_replay_witness :
    processBaccaratData (some { TableState.init ⟨1, 1, 1⟩ with lastRound := 3 }) none
        threeBankerResults
      = (some { TableState.init ⟨1, 1, 1⟩ with lastRound := 3 }, none) :=
  idempotent_replay _ _ _ (by decide)

/-- C3 counterexample: a report of length 6 for a table whose last
recorded length is 10 IS shorter than the last recorded length, yet
(because the boundary test also requires length < 5) it triggers NO
GlobalPrior update and NO engine reset: the call returns the table state
and the prior entry unchanged. -/
theorem session_boundary_cex :
    processBaccaratData (some tableAtRound10) none sixBankerResults
      = (some tableAtRound10, none) := by
  have hnb : ¬ (sixBankerResults.length < tableAtRound10.lastRound
      ∧ sixBankerResults.length < 5) := by decide
  have hdrop : sixBankerResults.drop tableAtRound10.lastRound = [] := by decide
  simp [processBaccaratData, hnb, processTail, hdrop]

/-- C3 amended: a session boundary fires only when the report is shorter
than the last recorded length AND shorter than 5; then the GlobalPrior
entry is set to the ending session's final counts verbatim (no
`1 + shrinkage × count` transform) and processing is exactly a fresh
start seeded with that prior (new engine with round counter 0); a shrink
to length ≥ 5 changes nothing at all. -/
theorem session_boundary_amended :
    (∀ (st : TableState) (gp : Option Counts) (results : List RawResult),
        results.length < st.lastRound → results.length < 5 →
        processBaccaratData (some st) gp results
          = processBaccaratData none (some st.strategy.counts) results)
    ∧ (∀ (st : TableState) (gp : Option Counts) (results : List RawResult),
        results.length < st.lastRound → 5 ≤ results.length →
        processBaccaratData (some st) gp results = (some st, gp)) := by
  constructor
  · intro st gp results h1 h2
    simp [processBaccaratData, if_pos (And.intro h1 h2)]
  · intro st gp results h1 h2
    have hnb : ¬ (results.length < st.lastRound ∧ results.length < 5) := by
      intro hc
      omega
    have hdrop : results.drop st.lastRound = [] :=
      List.drop_eq_nil_of_le (le_of_lt h1)
    simp [processBaccaratData, hnb, processTail, hdrop]

/-- C3 amended witness: both branches instantiated at a table with last
length 10: a 3-record report is a boundary (equal to a fresh start seeded
with the final counts); a 6-record report is a no-op. -/
theorem session_boundary_amended_witness :
    processBaccaratData (some tableAtRound10) none threeBankerResults
      = processBaccaratData none (some tableAtRound10.strategy.counts) threeBankerResults
    ∧ processBaccaratData (some tableAtRound10) none sixBankerResults
      = (some tableAtRound10, none) :=
  ⟨session_boundary_amended.1 _ _ _ (by decide) (by decide),
   session_boundary_amended.2 _ _ _ (by decide) (by decide)⟩

/-- C2: the `x < 0.5` branch of `gammaln` does not implement the log-gamma
reflection formula: at `x = 1/4` the code's value is strictly larger than
`log (π / sin (π x)) - gammaln (1 - x)` (the value the reflection formula
prescribes, which the true `ln Γ` satisfies exactly), because the source
omits the logarithm of `π / sin (π x)`. -/
theorem gammaln_reflection_missing_log :
    Real.log (Real.pi / Real.sin (Real.pi * (1 / 4))) - gammaln (1 - 1 / 4) < gammaln (1 / 4) := by
  have h14 : ((1 : ℝ) / 4) < 0.5 := by norm_num
  have h34 : ¬ ((1 : ℝ) - 1 / 4 < 0.5) := by norm_num
  have hA : 0 < Real.pi / Real.sin (Real.pi * (1 / 4)) := by
    apply div_pos Real.pi_pos
    rw [show Real.pi * (1 / 4) = Real.pi / 4 by ring, Real.sin_pi_div_four]
    positivity
  have hlog := Real.log_le_sub_one_of_pos hA
  simp only [gammaln, if_pos h14, if_neg h34]
  linarith

/-- Helper: closed form of the default calibration lookup — the value of
the highest breakpoint not exceeding the confidence, and the identity
below the lowest breakpoint. -/
theorem calibration_step_closed_form (x : ℝ) :
    getCalibratedConfidence calibrationMapDefaultR x =
      if x < 0.70 then x
      else if x < 0.75 then 0.68
      else if x < 0.80 then 0.71
      else if x < 0.85 then 0.75
      else if x < 0.90 then 0.80
      else if x < 0.95 then 0.86
      else 0.92 := by
  simp only [getCalibratedConfidence, calibrationMapDefaultR, calibLoop]
  rcases lt_or_le x 0.70 with h1 | h1
  · rw [if_neg (not_le.mpr h1), if_pos h1]
  · rcases lt_or_le x 0.75 with h2 | h2
    · rw [if_pos h1, if_neg (not_le.mpr h2), if_neg (not_lt.mpr h1), if_pos h2]
    · rcases lt_or_le x 0.80 with h3 | h3
      · rw [if_pos h1, if_pos h2, if_neg (not_le.mpr h3), if_neg (not_lt.mpr h1),
          if_neg (not_lt.mpr h2), if_pos h3]
      · rcases lt_or_le x 0.85 with h4 | h4
        · rw [if_pos h1, if_pos h2, if_pos h3, if_neg (not_le.mpr h4), if_neg (not_lt.mpr h1),
            if_neg (not_lt.mpr h2), if_neg (not_lt.mpr h3), if_pos h4]
        · rcases lt_or_le x 0.90 with h5 | h5
          · rw [if_pos h1, if_pos h2, if_pos h3, if_pos h4, if_neg (not_le.mpr h5),
              if_neg (not_lt.mpr h1), if_neg (not_lt.mpr h2), if_neg (not_lt.mpr h3),
              if_neg (not_lt.mpr h4), if_pos h5]
          · rcases lt_or_le x 0.95 with h6 | h6
            · rw [if_pos h1, if_pos h2, if_pos h3, if_pos h4, if_pos h5,
                if_neg (not_le.mpr h6), if_neg (not_lt.mpr h1), if_neg (not_lt.mpr h2),
                if_neg (not_lt.mpr h3), if_neg (not_lt.mpr h4), if_neg (not_lt.mpr h5),
                if_pos h6]
            · rw [if_pos h1, if_pos h2, if_pos h3, if_pos h4, if_pos h5, if_pos h6,
                if_neg (not_lt.mpr h1), if_neg (not_lt.mpr h2), if_neg (not_lt.mpr h3),
                if_neg (not_lt.mpr h4), if_neg (not_lt.mpr h5), if_neg (not_lt.mpr h6)]

/-- C5 counterexample: the calibration lookup is NOT monotone on all of
`[0, 1]`: at confidence `0.69` (below every breakpoint) it returns the
raw value `0.69`, while at `0.70` it drops to the configured `0.68`. -/
theorem calibration_monotone_cex :
    (0.69 : ℝ) ≤ 0.70
    ∧ getCalibratedConfidence calibrationMapDefaultR 0.69 = 0.69
    ∧ getCalibratedConfidence calibrationMapDefaultR 0.70 = 0.68
    ∧ ¬ getCalibratedConfidence calibrationMapDefaultR 0.69
        ≤ getCalibratedConfidence calibrationMapDefaultR 0.70 := by
  have h1 := calibration_step_closed_form (0.69 : ℝ)
  have h2 := calibration_step_closed_form (0.70 : ℝ)
  rw [if_pos (by norm_num : (0.69 : ℝ) < 0.70)] at h1
  rw [if_neg (by norm_num : ¬ (0.70 : ℝ) < 0.70),
    if_pos (by norm_num : (0.70 : ℝ) < 0.75)] at h2
  refine ⟨by norm_num, h1, h2, ?_⟩
  rw [h1, h2]
  norm_num

set_option maxHeartbeats 1000000 in
/-- C5 amended: the lookup returns the configured value of the highest
breakpoint not exceeding the confidence whenever one exists, and the raw
confidence unchanged below the lowest breakpoint (0.70); the induced map
is monotone non-decreasing on `[0.70, ∞)`, though not on all of `[0, 1]`. -/
theorem calibration_lookup_amended :
    (∀ x : ℝ, getCalibratedConfidence calibrationMapDefaultR x =
        if x < 0.70 then x
        else if x < 0.75 then 0.68
        else if x < 0.80 then 0.71
        else if x < 0.85 then 0.75
        else if x < 0.90 then 0.80
        else if x < 0.95 then 0.86
        else 0.92)
    ∧ ∀ x y : ℝ, 0.70 ≤ x → x ≤ y →
        getCalibratedConfidence calibrationMapDefaultR x
          ≤ getCalibratedConfidence calibrationMapDefaultR y := by
  refine ⟨calibration_step_closed_form, ?_⟩
  intro x y hx hxy
  rw [calibration_step_closed_form, calibration_step_closed_form]
  split_ifs <;> linarith

/-- C5 amended witness: monotonicity instantiated at the concrete pair
`0.76 ≤ 0.91` inside the breakpoint-covered region. -/
theorem calibration_lookup_amended_witness :
    getCalibratedConfidence calibrationMapDefaultR (0.76 : ℝ)
      ≤ getCalibratedConfidence calibrationMapDefaultR 0.91 :=
  calibration_lookup_amended.2 0.76 0.91 (by norm_num) (by norm_num)

/-- C7 counterexample: for `p` outside `[0, 1]`, `betaCdfInv` does NOT
return the not-a-number sentinel — it clamps: at `p = -1` it returns the
ordinary number `0`. -/
theorem betaCdfInv_domain_cex :
    betaCdfInv (-1) 2 2 = some 0 ∧ betaCdfInv (-1) 2 2 ≠ none := by
  have h : betaCdfInv (-1) 2 2 = some 0 := by
    simp only [betaCdfInv]
    norm_num
  exact ⟨h, by rw [h]; exact Option.some_ne_none 0⟩

/-- C7 amended: `regularizedIncompleteBeta` returns the sentinel for every
`x` outside `[0, 1]`; `betaCdfInv` clamps `p ≤ 0` to `0` and `p ≥ 1` to
`1` (never the sentinel); and the engine maps a sentinel raw confidence to
`0`, so a domain violation never contributes to a bet decision. -/
theorem special_function_domain_amended :
    (∀ x a b : ℝ, x < 0 ∨ 1 < x → regularizedIncompleteBeta x a b = none)
    ∧ (∀ p a b : ℝ, p ≤ 0 → betaCdfInv p a b = some 0)
    ∧ (∀ p a b : ℝ, 1 ≤ p → betaCdfInv p a b = some 1)
    ∧ (∀ pbs a b : ℝ, regularizedIncompleteBeta pbs a b = none → rawConfidenceR pbs a b = 0) := by
  refine ⟨?_, ?_, ?_, ?_⟩
  · intro x a b h
    simp [regularizedIncompleteBeta, h]
  · intro p a b h
    simp [betaCdfInv, h]
  · intro p a b h
    have hp : ¬ p ≤ 0 := by linarith
    simp [betaCdfInv, hp, h]
  · intro pbs a b h
    simp [rawConfidenceR, h]

/-- C7 amended witness: each clause instantiated at concrete arguments. -/
theorem special_function_domain_amended_witness :
    regularizedIncompleteBeta 2 3 4 = none
    ∧ betaCdfInv (-1 / 2) 2 2 = some 0
    ∧ betaCdfInv 2 2 2 = some 1
    ∧ rawConfidenceR 2 3 4 = 0 :=
  ⟨special_function_domain_amended.1 2 3 4 (by norm_num),
   special_function_domain_amended.2.1 (-1 / 2) 2 2 (by norm_num),
   special_function_domain_amended.2.2.1 2 2 2 (by norm_num),
   special_function_domain_amended.2.2.2 2 3 4
     (special_function_domain_amended.1 2 3 4 (by norm_num))⟩

end Proofs
